import Mathlib

/-!
Verification of the SSE streaming transport (`SSEElysiaTransport`) and its
session registry, shallowly embedded from the TypeScript source.
-/

/-- A JSON value, the model of the JavaScript values handled by the transport
(message bodies parsed by the web layer, protocol envelopes serialized with
`JSON.stringify`).  Numbers are modelled as integers: the protocol envelopes
the transport carries use integral ids and the serializer below mirrors
`JSON.stringify` on such values. -/
inductive Json where
  | null : Json
  | bool (b : Bool) : Json
  | num (n : Int) : Json
  | str (s : String) : Json
  | arr (xs : List Json) : Json
  | obj (kvs : List (String × Json)) : Json

/-- Decimal digit character for a value below ten. -/
def digitChar (d : Nat) : Char := Char.ofNat (48 + d)

/-- Lowercase hexadecimal digit character, as emitted by `JSON.stringify`
for control-character escapes. -/
def hexDigitL (d : Nat) : Char :=
  if d < 10 then Char.ofNat (48 + d) else Char.ofNat (87 + d)

/-- Numeric value of a hexadecimal digit character, accepting both cases. -/
def hexVal (c : Char) : Option Nat :=
  let n := c.toNat
  if 48 ≤ n ∧ n ≤ 57 then some (n - 48)
  else if 97 ≤ n ∧ n ≤ 102 then some (n - 87)
  else if 65 ≤ n ∧ n ≤ 70 then some (n - 55)
  else none

/-- Big-endian decimal digits of a natural number, mirroring how
`JSON.stringify` prints a nonnegative integer. -/
def natToChars (n : Nat) : List Char :=
  if _h : n < 10 then [digitChar n]
  else natToChars (n / 10) ++ [digitChar (n % 10)]
decreasing_by exact Nat.div_lt_self (by omega) (by norm_num)

/-- Decimal digits of an integer, mirroring `JSON.stringify` on integers. -/
def intToChars (i : Int) : List Char :=
  if i < 0 then Char.ofNat 45 :: natToChars i.natAbs else natToChars i.toNat

/-- The escape sequence `JSON.stringify` uses for one character inside a
string literal: `\"` and `\\` for the quote and backslash, a `\u00xx`
escape for control characters, and the character itself otherwise. -/
def escapeChar (c : Char) : List Char :=
  if c = '"' then ['\\', '"']
  else if c = '\\' then ['\\', '\\']
  else if c.toNat < 32 then
    ['\\', 'u', '0', '0', hexDigitL (c.toNat / 16), hexDigitL (c.toNat % 16)]
  else [c]

/-- Escape every character of a string body. -/
def escList : List Char → List Char
  | [] => []
  | c :: cs => escapeChar c ++ escList cs

mutual
/-- Characters of the JSON serialization of a value, mirroring
`JSON.stringify` (no added whitespace). -/
def emitVal : Json → List Char
  | Json.null => ['n', 'u', 'l', 'l']
  | Json.bool true => ['t', 'r', 'u', 'e']
  | Json.bool false => ['f', 'a', 'l', 's', 'e']
  | Json.num i => intToChars i
  | Json.str s => '"' :: (escList s.data ++ ['"'])
  | Json.arr [] => ['[', ']']
  | Json.arr (x :: xs) => '[' :: emitItems x xs
  | Json.obj [] => ['{', '}']
  | Json.obj (kv :: kvs) => '{' :: emitFields kv kvs
termination_by v => sizeOf v
decreasing_by all_goals (simp_wf <;> omega)

/-- Serialized array elements, comma separated, with the closing bracket. -/
def emitItems : Json → List Json → List Char
  | x, [] => emitVal x ++ [']']
  | x, y :: ys => emitVal x ++ ',' :: emitItems y ys
termination_by x xs => 1 + sizeOf x + sizeOf xs
decreasing_by all_goals (simp_wf <;> omega)

/-- Serialized object fields, comma separated, with the closing brace. -/
def emitFields : String × Json → List (String × Json) → List Char
  | (k, v), [] => ('"' :: (escList k.data ++ '"' :: ':' :: emitVal v)) ++ ['}']
  | (k, v), kv2 :: rest =>
      ('"' :: (escList k.data ++ '"' :: ':' :: emitVal v)) ++ ',' :: emitFields kv2 rest
termination_by kv kvs => 1 + sizeOf kv + sizeOf kvs
decreasing_by all_goals (simp_wf <;> omega)
end

/-- The JSON serialization of a value as a string (`JSON.stringify`). -/
def stringify (v : Json) : String := String.mk (emitVal v)

/-- True when the list is empty or starts with one of the characters the
serializer can emit directly after a nested value: a separator or a closing
bracket.  Such a character can never extend a number token. -/
def delimOk : List Char → Bool
  | [] => true
  | c :: _ => c = ',' || c = ']' || c = '}'

/-- Longest digit prefix of a character list, with the remainder. -/
def takeDigits : List Char → List Char × List Char
  | [] => ([], [])
  | c :: rest =>
      if c.isDigit then
        let p := takeDigits rest
        (c :: p.1, p.2)
      else ([], c :: rest)

/-- Value of a big-endian digit list, with an accumulator. -/
def digitsToNat (acc : Nat) : List Char → Nat
  | [] => acc
  | c :: rest => digitsToNat (acc * 10 + (c.toNat - 48)) rest

/-- True when the list starts with a decimal digit. -/
def headDigit : List Char → Bool
  | [] => false
  | c :: _ => c.isDigit

/-- Value of a four-character hexadecimal escape payload. -/
def hex4 (a b c d : Char) : Option Nat :=
  (hexVal a).bind fun va =>
    (hexVal b).bind fun vb =>
      (hexVal c).bind fun vc =>
        (hexVal d).map fun vd => ((va * 16 + vb) * 16 + vc) * 16 + vd

/-- Body of a JSON string literal after the opening quote: characters up to
the closing quote, with escape sequences decoded. -/
def parseStrBody : List Char → Option (List Char × List Char)
  | [] => none
  | c :: rest =>
      if c = '"' then some ([], rest)
      else if c = '\\' then
        match rest with
        | [] => none
        | e :: rest2 =>
            if e = '"' then (parseStrBody rest2).map fun p => ('"' :: p.1, p.2)
            else if e = '\\' then (parseStrBody rest2).map fun p => ('\\' :: p.1, p.2)
            else if e = 'u' then
              match rest2 with
              | h1 :: h2 :: h3 :: h4 :: rest3 =>
                  (hex4 h1 h2 h3 h4).bind fun n =>
                    (parseStrBody rest3).map fun p => (Char.ofNat n :: p.1, p.2)
              | _ => none
            else none
      else (parseStrBody rest).map fun p => (c :: p.1, p.2)

mutual
/-- Fueled recursive-descent reader for one JSON value off the front of a
character list, returning the value and the unconsumed tail. -/
def parseVal : Nat → List Char → Option (Json × List Char)
  | 0, _ => none
  | _ + 1, [] => none
  | fuel + 1, c :: rest =>
      if c = 'n' then
        match rest with
        | 'u' :: 'l' :: 'l' :: r => some (Json.null, r)
        | _ => none
      else if c = 't' then
        match rest with
        | 'r' :: 'u' :: 'e' :: r => some (Json.bool true, r)
        | _ => none
      else if c = 'f' then
        match rest with
        | 'a' :: 'l' :: 's' :: 'e' :: r => some (Json.bool false, r)
        | _ => none
      else if c = '"' then
        (parseStrBody rest).map fun p => (Json.str (String.mk p.1), p.2)
      else if c = Char.ofNat 45 then
        if headDigit rest then
          let p := takeDigits rest
          some (Json.num (-(digitsToNat 0 p.1 : Int)), p.2)
        else none
      else if c = '[' then
        if rest.head? = some ']' then some (Json.arr [], rest.tail)
        else (parseItems fuel rest).map fun p => (Json.arr p.1, p.2)
      else if c = '{' then
        if rest.head? = some '}' then some (Json.obj [], rest.tail)
        else (parseFields fuel rest).map fun p => (Json.obj p.1, p.2)
      else if c.isDigit then
        let p := takeDigits (c :: rest)
        some (Json.num (digitsToNat 0 p.1 : Int), p.2)
      else none

/-- Fueled reader for the elements of a non-empty array, up to and including
the closing bracket. -/
def parseItems : Nat → List Char → Option (List Json × List Char)
  | 0, _ => none
  | fuel + 1, cs =>
      (parseVal fuel cs).bind fun p =>
        match p.2 with
        | ',' :: r2 => (parseItems fuel r2).map fun q => (p.1 :: q.1, q.2)
        | ']' :: r2 => some ([p.1], r2)
        | _ => none

/-- Fueled reader for the fields of a non-empty object, up to and including
the closing brace. -/
def parseFields : Nat → List Char → Option (List (String × Json) × List Char)
  | 0, _ => none
  | fuel + 1, cs =>
      match cs with
      | '"' :: r0 =>
          (parseStrBody r0).bind fun kp =>
            match kp.2 with
            | ':' :: r2 =>
                (parseVal fuel r2).bind fun vp =>
                  match vp.2 with
                  | ',' :: r4 =>
                      (parseFields fuel r4).map fun q =>
                        ((String.mk kp.1, vp.1) :: q.1, q.2)
                  | '}' :: r4 => some ([(String.mk kp.1, vp.1)], r4)
                  | _ => none
            | _ => none
      | _ => none
end

/-- Parse a complete JSON string to a value (`JSON.parse` on the canonical
serializations produced by `stringify`), rejecting trailing characters. -/
def parseJson (s : String) : Option Json :=
  (parseVal s.data.length s.data).bind fun p =>
    if p.2 = [] then some p.1 else none

/-- UTF-8 bytes of one unicode scalar value, as produced by `TextEncoder`. -/
def utf8EncodeChar (c : Char) : List Nat :=
  let n := c.toNat
  if n < 128 then [n]
  else if n < 2048 then [192 + n / 64, 128 + n % 64]
  else if n < 65536 then [224 + n / 4096, 128 + (n / 64) % 64, 128 + n % 64]
  else [240 + n / 262144, 128 + (n / 4096) % 64, 128 + (n / 64) % 64, 128 + n % 64]

/-- UTF-8 bytes of a string (`new TextEncoder().encode(s)`). -/
def utf8Encode (s : String) : List Nat :=
  (s.data.map utf8EncodeChar).flatten

/-- Uppercase hexadecimal digit character, as used in `%XX` escapes. -/
def hexDigitU (d : Nat) : Char :=
  if d < 10 then Char.ofNat (48 + d) else Char.ofNat (55 + d)

/-- Characters the JavaScript `encodeURI` builtin leaves unescaped:
letters, digits, and the unreserved plus reserved URI marks. -/
def encodeURIKeep (c : Char) : Bool :=
  c.isAlpha || c.isDigit ||
  c = ';' || c = ',' || c = '/' || c = '?' || c = ':' || c = '@' || c = '&' ||
  c = '=' || c = '+' || c = '$' || c = '-' || c = '_' || c = '.' || c = '!' ||
  c = '~' || c = '*' || c = Char.ofNat 39 || c = '(' || c = ')' || c = '#'

/-- Characters percent-encoding of a URI component leaves unescaped
(`encodeURIComponent` semantics): letters, digits, and `-_.!~*'()`. -/
def componentKeep (c : Char) : Bool :=
  c.isAlpha || c.isDigit ||
  c = '-' || c = '_' || c = '.' || c = '!' || c = '~' || c = '*' ||
  c = Char.ofNat 39 || c = '(' || c = ')'

/-- Percent-escape one character unless the keep predicate holds: each UTF-8
byte becomes a `%XX` escape with uppercase hex digits. -/
def percentEncodeChar (keep : Char → Bool) (c : Char) : List Char :=
  if keep c then [c]
  else ((utf8EncodeChar c).map fun b => ['%', hexDigitU (b / 16), hexDigitU (b % 16)]).flatten

/-- Model of the JavaScript `encodeURI` builtin used on the messages path. -/
def encodeURI (s : String) : String :=
  String.mk ((s.data.map (percentEncodeChar encodeURIKeep)).flatten)

/-- Percent-encoding of a URI component, the sense in which the spec says
the session id in the endpoint URL is percent-encoded. -/
def percentEncode (s : String) : String :=
  String.mk ((s.data.map (percentEncodeChar componentKeep)).flatten)

/-- The characters a canonical UUID string as produced by `randomUUID` can
contain: lowercase hexadecimal digits and hyphens. -/
def uuidChars : List Char :=
  ['-', 'f', 'e', 'd', 'c', 'b', 'a',
   '9', '8', '7', '6', '5', '4', '3', '2', '1', '0']

/-- Membership in the canonical UUID alphabet. -/
def isUUIDChar (c : Char) : Bool := uuidChars.contains c

/-- Field lookup in a JSON object, first binding wins. -/
def getField : List (String × Json) → String → Option Json
  | [], _ => none
  | (k, v) :: rest, key => if k = key then some v else getField rest key

/-- True when the field holds the protocol version string "2.0". -/
def isVersionVal : Option Json → Bool
  | some (Json.str s) => s = "2.0"
  | _ => false

/-- True when the field holds a string. -/
def isStringVal : Option Json → Bool
  | some (Json.str _) => true
  | _ => false

/-- True when the field holds a JSON-RPC id (a string or a number). -/
def isIdVal : Option Json → Bool
  | some (Json.str _) => true
  | some (Json.num _) => true
  | _ => false

/-- True when the field holds a JSON-RPC error object: a numeric `code`
and a string `message`. -/
def isErrorVal : Option Json → Bool
  | some (Json.obj kvs) =>
      (match getField kvs "code" with
       | some (Json.num _) => true
       | _ => false) &&
      isStringVal (getField kvs "message")
  | _ => false

/-- Modelled from the spec: whether a body is a well-formed protocol
envelope.  The actual check in the source is `JSONRPCMessageSchema.parse`
from the external `@modelcontextprotocol/sdk` package, which is not part of
this repository; the spec scopes it to "this blob is or is not a well-formed
protocol envelope" with "method name, id, params shape per the
JSON-RPC-like protocol in use".  A JSON-RPC 2.0 envelope is an object with
version "2.0" that is a request (method plus id), a notification (method,
no id), a result response (id plus result), or an error response (id plus
error object). -/
def isJSONRPC : Json → Bool
  | Json.obj kvs =>
      isVersionVal (getField kvs "jsonrpc") &&
      ((isStringVal (getField kvs "method") &&
        (isIdVal (getField kvs "id") || (getField kvs "id").isNone))
       ||
       (isIdVal (getField kvs "id") &&
        ((getField kvs "result").isSome || isErrorVal (getField kvs "error"))))
  | _ => false

/-- State of one `SSEElysiaTransport` instance.  The callback slots
`onclose`/`onerror`/`onmessage` record whether the optional handler is set
(the handlers themselves are external; the effect trace records their
invocations).  `isConnected` is the `_isConnected` flag; `endpoint` and
`sessionId` are the constructor-time `_endpoint` and `_sessionId`. -/
structure SSEElysiaTransport where
  sessionId : String
  endpoint : String
  isConnected : Bool
  onclose : Bool
  onerror : Bool
  onmessage : Bool
deriving DecidableEq

/-- Observable effect of one transport operation, in order: a byte string
enqueued on the outbound stream controller, or an invocation of one of the
registered callbacks. -/
inductive Effect where
  | sinkWrite (bytes : List Nat)
  | callClose
  | callError (msg : String)
  | callMessage (m : Json)

/-- Error raised (thrown) by a transport operation. -/
inductive Err where
  | notConnected
  | setupFailure (msg : String)
  | validation (msg : String)
deriving DecidableEq

/-- Result of a transport operation: the updated state, the effects in
the order they occurred, and the error the operation threw, if any. -/
structure StepResult where
  state : SSEElysiaTransport
  effects : List Effect
  err : Option Err

/-- An HTTP response at the boundary (status code and JSON body text). -/
structure HttpResponse where
  status : Nat
  body : String
deriving DecidableEq

/-- Invocation of an optional callback slot, mirroring `cb?.(x)`: the
effect occurs iff the slot is set, and an unset slot is a silent no-op,
never an error. -/
def optEffect (registered : Bool) (e : Effect) : List Effect :=
  if registered then [e] else []

/-- Wire framing of one event, from `_sendEvent`:
`event: <name>\ndata: <payload>\n\n`. -/
def frame (event data : String) : String :=
  "event: " ++ event ++ "\n" ++ "data: " ++ data ++ "\n\n"

namespace SSEElysiaTransport

/-- The `_handleError` helper: clears `_isConnected` and invokes the
`onerror` callback with the failure. -/
def handleErrorStep (t : SSEElysiaTransport) (msg : String) :
    SSEElysiaTransport × List Effect :=
  ({ t with isConnected := false }, optEffect t.onerror (Effect.callError msg))

/-- The `_sendEvent` primitive.  If not connected it logs and returns
without writing.  Otherwise it enqueues the UTF-8 encoding of the framed
event; `writeOk` models whether `controller.enqueue` succeeds, and on a
write failure the caught error goes through `_handleError`.  The function
is total: `_sendEvent` never throws. -/
def sendEventStep (t : SSEElysiaTransport) (writeOk : Bool) (event data : String) :
    SSEElysiaTransport × List Effect :=
  if t.isConnected = false then (t, [])
  else if writeOk then (t, [Effect.sinkWrite (utf8Encode (frame event data))])
  else handleErrorStep t "Error sending event"

/-- The URL sent in the endpoint event, from `_sendEndpointEvent`:
`${encodeURI(this._endpoint)}?sessionId=${this._sessionId}` (the raw
session id is appended). -/
def endpointUrl (t : SSEElysiaTransport) : String :=
  encodeURI t.endpoint ++ "?sessionId=" ++ t.sessionId

/-- The `start()` operation: a no-op if already connected; otherwise binds
the response to the stream (`setupOk` models whether that throws), marks
the transport connected, and sends the endpoint event.  A setup failure is
reported through `_handleError` and re-thrown. -/
def start (t : SSEElysiaTransport) (setupOk writeOk : Bool) : StepResult :=
  if t.isConnected then { state := t, effects := [], err := none }
  else if setupOk then
    let t1 := { t with isConnected := true }
    let p := sendEventStep t1 writeOk "endpoint" (endpointUrl t)
    { state := p.1, effects := p.2, err := none }
  else
    let p := handleErrorStep t "Error starting transport"
    { state := p.1, effects := p.2, err := some (Err.setupFailure "Error starting transport") }

/-- The `close()` operation: clears `_isConnected` and invokes the
`onclose` callback.  The source has no guard: the callback is invoked on
every call, including calls on an already-closed transport.  (Both
transport variants in the repository agree, the second merely also stops
its keepalive timer.) -/
def close (t : SSEElysiaTransport) : SSEElysiaTransport × List Effect :=
  ({ t with isConnected := false }, optEffect t.onclose Effect.callClose)

/-- The stream `cancel` callback installed by the constructor, run when the
client disconnects: clears `_isConnected` and invokes `onclose`. -/
def streamCancel (t : SSEElysiaTransport) : SSEElysiaTransport × List Effect :=
  ({ t with isConnected := false }, optEffect t.onclose Effect.callClose)

/-- The `send(message)` operation: throws "Not connected" when the
transport is not connected, otherwise serializes the message with
`JSON.stringify` and sends it as a `message` event. -/
def send (t : SSEElysiaTransport) (writeOk : Bool) (m : Json) : StepResult :=
  if t.isConnected = false then { state := t, effects := [], err := some Err.notConnected }
  else
    let p := sendEventStep t writeOk "message" (stringify m)
    { state := p.1, effects := p.2, err := none }

/-- The `handleMessage` operation: validates the body against the protocol
envelope schema.  On failure it invokes `onerror` and re-throws the
validation error; on success it invokes `onmessage` with the decoded
message. -/
def handleMessage (t : SSEElysiaTransport) (body : Json) : StepResult :=
  if isJSONRPC body then
    { state := t, effects := optEffect t.onmessage (Effect.callMessage body), err := none }
  else
    { state := t,
      effects := optEffect t.onerror (Effect.callError "Invalid message format"),
      err := some (Err.validation "Invalid message format") }

/-- String form of a thrown error (`String(error)` in the source). -/
def errText : Err → String
  | Err.notConnected => "Error: Not connected"
  | Err.setupFailure m => m
  | Err.validation m => m

/-- The `handlePostMessage` operation: a 500 response when the transport
is not connected; otherwise it runs `handleMessage` on the body and
answers 202 `{success: true}` on success or 400 with the caught error on
failure. -/
def handlePostMessage (t : SSEElysiaTransport) (body : Json) :
    StepResult × HttpResponse :=
  if t.isConnected = false then
    ({ state := t, effects := [], err := none },
     { status := 500,
       body := stringify (Json.obj [("error", Json.str "SSE connection not established")]) })
  else
    let r := handleMessage t body
    match r.err with
    | none =>
        (r, { status := 202, body := stringify (Json.obj [("success", Json.bool true)]) })
    | some e =>
        ({ r with err := none },
         { status := 400, body := stringify (Json.obj [("error", Json.str (errText e))]) })

end SSEElysiaTransport

/-- State of the routing layer of `index.ts`: the module-level
`transports` map from session id to transport, modelled as an association
list with JavaScript `Map` semantics. -/
structure SystemState where
  transports : List (String × SSEElysiaTransport)

/-- JavaScript `Map.prototype.set`: replace the value if the key exists,
otherwise append the entry. -/
def mapSet (m : List (String × SSEElysiaTransport)) (k : String) (v : SSEElysiaTransport) :
    List (String × SSEElysiaTransport) :=
  match m with
  | [] => [(k, v)]
  | (k1, v1) :: rest => if k1 = k then (k, v) :: rest else (k1, v1) :: mapSet rest k v

/-- JavaScript `Map.prototype.get`, as used after a `has` check. -/
def mapGet (m : List (String × SSEElysiaTransport)) (k : String) : Option SSEElysiaTransport :=
  match m with
  | [] => none
  | (k1, v1) :: rest => if k1 = k then some v1 else mapGet rest k

/-- One externally-triggered event against the routing layer. -/
inductive SysAction where
  | connect (id : String)
  | postMessage (sid : String) (body : Json)
  | closeTransport (sid : String)
  | cancel (sid : String)
  | serverSend (sid : String) (writeOk : Bool) (m : Json)

/-- The transport built by the `/sse` handler after `server.connect` has
registered the three callbacks and run `start()`: endpoint `"/messages"`,
the freshly minted session id, all callback slots set. -/
def connectedTransport (id : String) : SSEElysiaTransport :=
  (SSEElysiaTransport.start
    { sessionId := id, endpoint := "/messages", isConnected := false,
      onclose := true, onerror := true, onmessage := true } true true).state

/-- One step of the routing layer.  `connect` is the `/sse` handler:
it stores the transport in the map and connects it (there is no removal
anywhere in the source).  `postMessage` is the `/messages` handler: look
the session up, and if present forward the body to `handlePostMessage`.
`closeTransport` is a `close()` call on a registered transport, `cancel`
a client disconnect of its stream, and `serverSend` a server-initiated
`send`; the map itself is never mutated by any of them. -/
def stepSystem (s : SystemState) (a : SysAction) : SystemState :=
  match a with
  | SysAction.connect id => { transports := mapSet s.transports id (connectedTransport id) }
  | SysAction.postMessage sid body =>
      match mapGet s.transports sid with
      | none => s
      | some t =>
          { transports := mapSet s.transports sid
              ((SSEElysiaTransport.handlePostMessage t body).1.state) }
  | SysAction.closeTransport sid =>
      match mapGet s.transports sid with
      | none => s
      | some t => { transports := mapSet s.transports sid (SSEElysiaTransport.close t).1 }
  | SysAction.cancel sid =>
      match mapGet s.transports sid with
      | none => s
      | some t => { transports := mapSet s.transports sid (SSEElysiaTransport.streamCancel t).1 }
  | SysAction.serverSend sid wOk m =>
      match mapGet s.transports sid with
      | none => s
      | some t =>
          { transports := mapSet s.transports sid ((SSEElysiaTransport.send t wOk m).state) }

/-- Run the routing layer from the initial empty map. -/
def runSystem (acts : List SysAction) : SystemState :=
  acts.foldl stepSystem { transports := [] }

/-- Registry key set of a system state. -/
def registryKeys (s : SystemState) : List String :=
  s.transports.map Prod.fst

/-- Session ids of the currently connected transports. -/
def connectedIds (s : SystemState) : List String :=
  (s.transports.filter fun e => e.2.isConnected).map Prod.fst

/-- Containment of one key list in another, as a boolean. -/
def keysSubset (l1 l2 : List String) : Bool :=
  l1.all fun k => l2.contains k

/-- The registry/connected-transport equality claimed by the spec: the key
set of the registry and the set of session ids of connected transports
contain each other. -/
def registrumEq (s : SystemState) : Bool :=
  keysSubset (registryKeys s) (connectedIds s) && keysSubset (connectedIds s) (registryKeys s)

/-- Every registry entry is keyed by its transport's own session id. -/
def wellKeyed (s : SystemState) : Bool :=
  s.transports.all fun e => e.1 = e.2.sessionId

/-! Digit and number lemmas for the serialization round trip. -/

theorem digitChar_toNat (d : Nat) (h : d < 10) : (digitChar d).toNat = 48 + d := by
  interval_cases d <;> decide

theorem digitChar_isDigit (d : Nat) (h : d < 10) : (digitChar d).isDigit = true := by
  interval_cases d <;> decide

theorem natToChars_ne_nil (n : Nat) : natToChars n ≠ [] := by
  rw [natToChars]
  split
  · simp
  · simp

theorem natToChars_digits (n : Nat) : ∀ c ∈ natToChars n, c.isDigit = true := by
  induction n using Nat.strong_induction_on with
  | _ n ih =>
    rw [natToChars]
    split
    next h =>
      intro c hc
      simp only [List.mem_singleton] at hc
      subst hc
      exact digitChar_isDigit n h
    next h =>
      intro c hc
      rcases List.mem_append.1 hc with h1 | h1
      · exact ih (n / 10) (Nat.div_lt_self (by omega) (by norm_num)) c h1
      · simp only [List.mem_singleton] at h1
        subst h1
        exact digitChar_isDigit _ (Nat.mod_lt _ (by norm_num))

theorem digitsToNat_nil (acc : Nat) : digitsToNat acc [] = acc := rfl

theorem digitsToNat_cons (acc : Nat) (c : Char) (cs : List Char) :
    digitsToNat acc (c :: cs) = digitsToNat (acc * 10 + (c.toNat - 48)) cs := rfl

theorem digitsToNat_append (l1 l2 : List Char) (acc : Nat) :
    digitsToNat acc (l1 ++ l2) = digitsToNat (digitsToNat acc l1) l2 := by
  induction l1 generalizing acc with
  | nil => rfl
  | cons c cs ih =>
    rw [List.cons_append, digitsToNat_cons, digitsToNat_cons]
    exact ih _

theorem digitsToNat_natToChars (n : Nat) :
    ∀ acc, digitsToNat acc (natToChars n) = acc * 10 ^ (natToChars n).length + n := by
  induction n using Nat.strong_induction_on with
  | _ n ih =>
    intro acc
    rw [natToChars]
    split
    next h =>
      rw [digitsToNat_cons, digitsToNat_nil, digitChar_toNat n h]
      simp

    next h =>
      rw [digitsToNat_append, ih (n / 10) (Nat.div_lt_self (by omega) (by norm_num)) acc,
        digitsToNat_cons, digitsToNat_nil, digitChar_toNat (n % 10) (Nat.mod_lt _ (by norm_num))]
      simp only [List.length_append, List.length_singleton, pow_succ]
      have hdm := Nat.div_add_mod n 10
      ring_nf
      omega

theorem digitsToNat_natToChars_zero (n : Nat) : digitsToNat 0 (natToChars n) = n := by
  simpa using digitsToNat_natToChars n 0

theorem takeDigits_of_digits (ds rest : List Char)
    (hds : ∀ c ∈ ds, c.isDigit = true) (hrest : headDigit rest = false) :
    takeDigits (ds ++ rest) = (ds, rest) := by
  induction ds with
  | nil =>
    simp only [List.nil_append]
    cases rest with
    | nil => rfl
    | cons c r =>
      simp only [headDigit] at hrest
      rw [takeDigits.eq_def]
      simp [hrest]
  | cons c cs ih =>
    have hc : c.isDigit = true := hds c (by simp)
    have ihr := ih (fun c h => hds c (by simp [h]))
    rw [List.cons_append, takeDigits.eq_def]
    simp [hc, ihr]

theorem headDigit_natToChars (n : Nat) (rest : List Char) :
    headDigit (natToChars n ++ rest) = true := by
  obtain ⟨c, cs, h⟩ := List.exists_cons_of_ne_nil (natToChars_ne_nil n)
  have hc : c.isDigit = true := natToChars_digits n c (by rw [h]; exact List.mem_cons_self c cs)
  simp [h, headDigit, hc]

theorem delimOk_headDigit (rest : List Char) (h : delimOk rest = true) :
    headDigit rest = false := by
  cases rest with
  | nil => rfl
  | cons c r =>
    simp only [delimOk, Bool.or_eq_true, decide_eq_true_eq] at h
    rcases h with (rfl | rfl) | rfl <;> rfl

/-! String-escape lemmas for the serialization round trip. -/

theorem hexVal_hexDigitL (d : Nat) (h : d < 16) : hexVal (hexDigitL d) = some d := by
  interval_cases d <;> decide

theorem parseStrBody_escapeChar (c : Char) (l2 : List Char) :
    parseStrBody (escapeChar c ++ l2) = (parseStrBody l2).map fun p => (c :: p.1, p.2) := by
  by_cases h1 : c = '"'
  · subst h1
    have e1 : escapeChar '"' = ['\\', '"'] := rfl
    rw [e1, List.cons_append, List.cons_append, parseStrBody.eq_def]
    simp
  · by_cases h2 : c = '\\'
    · subst h2
      have e2 : escapeChar '\\' = ['\\', '\\'] := rfl
      rw [e2, List.cons_append, List.cons_append, parseStrBody.eq_def]
      simp
    · by_cases h3 : c.toNat < 32
      · have hd1 : c.toNat / 16 < 16 := by omega
        have hd2 : c.toNat % 16 < 16 := Nat.mod_lt _ (by norm_num)
        have e3 : escapeChar c =
            ['\\', 'u', '0', '0', hexDigitL (c.toNat / 16), hexDigitL (c.toNat % 16)] := by
          simp [escapeChar, h1, h2, h3]
        have hh : hex4 '0' '0' (hexDigitL (c.toNat / 16)) (hexDigitL (c.toNat % 16)) =
            some (c.toNat / 16 * 16 + c.toNat % 16) := by
          rw [hex4, show hexVal '0' = some 0 from rfl,
            hexVal_hexDigitL _ hd1, hexVal_hexDigitL _ hd2]
          simp
        rw [e3]
        simp only [List.cons_append, List.nil_append]
        rw [parseStrBody.eq_def]
        simp +decide only [if_true, if_false, hh, Option.some_bind]
        rw [show c.toNat / 16 * 16 + c.toNat % 16 = c.toNat from by omega, Char.ofNat_toNat]
      · have e4 : escapeChar c = [c] := by simp [escapeChar, h1, h2, h3]
        rw [e4, List.singleton_append, parseStrBody.eq_def]
        simp [h1, h2]

theorem parseStrBody_escList (l : List Char) (rest : List Char) :
    parseStrBody (escList l ++ '"' :: rest) = some (l, rest) := by
  induction l with
  | nil =>
    simp only [escList, List.nil_append]
    rw [parseStrBody.eq_def]
    simp
  | cons c cs ih =>
    simp only [escList, List.append_assoc]
    rw [parseStrBody_escapeChar, ih]
    rfl

/-! Shape lemmas about the serializer output. -/

theorem emitVal_ne_nil (v : Json) : emitVal v ≠ [] := by
  cases v with
  | null => simp [emitVal]
  | bool b => cases b <;> simp [emitVal]
  | num i =>
    simp only [emitVal, intToChars]
    split
    · simp
    · exact natToChars_ne_nil _
  | str s => simp [emitVal]
  | arr xs => cases xs <;> simp [emitVal]
  | obj kvs => cases kvs <;> simp [emitVal]

theorem emitVal_length_pos (v : Json) : 1 ≤ (emitVal v).length := by
  obtain ⟨c, cs, h⟩ := List.exists_cons_of_ne_nil (emitVal_ne_nil v)
  simp [h]

theorem emitVal_head_ne_rbracket (v : Json) (c : Char) (cs : List Char)
    (h : emitVal v = c :: cs) : ¬(c = ']') := by
  cases v with
  | null =>
    simp only [emitVal, List.cons.injEq] at h
    obtain ⟨rfl, -⟩ := h
    decide
  | bool b =>
    cases b <;> (simp only [emitVal, List.cons.injEq] at h; obtain ⟨rfl, -⟩ := h; decide)
  | num i =>
    simp only [emitVal, intToChars] at h
    split at h
    · simp only [List.cons.injEq] at h
      obtain ⟨rfl, -⟩ := h
      decide
    · have hc : c.isDigit = true :=
        natToChars_digits _ c (by rw [h]; exact List.mem_cons_self _ _)
      intro hc2
      subst hc2
      exact absurd hc (by decide)
  | str s =>
    simp only [emitVal, List.cons.injEq] at h
    obtain ⟨rfl, -⟩ := h
    decide
  | arr xs =>
    cases xs <;>
      (simp only [emitVal, List.cons.injEq] at h; obtain ⟨rfl, -⟩ := h; decide)
  | obj kvs =>
    cases kvs <;>
      (simp only [emitVal, List.cons.injEq] at h; obtain ⟨rfl, -⟩ := h; decide)

theorem emitItems_eq_append (x : Json) (xs : List Json) :
    ∃ q, emitItems x xs = emitVal x ++ q := by
  cases xs with
  | nil => exact ⟨[']'], by simp [emitItems]⟩
  | cons y ys => exact ⟨',' :: emitItems y ys, by simp [emitItems]⟩

theorem emitFields_eq_cons (kv : String × Json) (kvs : List (String × Json)) :
    ∃ q, emitFields kv kvs = '"' :: q := by
  obtain ⟨k, v⟩ := kv
  cases kvs with
  | nil => exact ⟨(escList k.data ++ '"' :: ':' :: emitVal v) ++ ['}'], by simp [emitFields]⟩
  | cons kv2 rest => exact ⟨(escList k.data ++ '"' :: ':' :: emitVal v) ++ ',' :: emitFields kv2 rest, by simp [emitFields]⟩

/-! The serialization round trip: the fueled parser reads back exactly what
the serializer emitted, leaving any delimiter-headed tail untouched. -/

theorem parseItems_succ (fuel : Nat) (cs : List Char) :
    parseItems (fuel + 1) cs =
      (parseVal fuel cs).bind fun p =>
        match p.2 with
        | ',' :: r2 => (parseItems fuel r2).map fun q => (p.1 :: q.1, q.2)
        | ']' :: r2 => some ([p.1], r2)
        | _ => none := rfl

theorem parseFields_succ (fuel : Nat) (cs : List Char) :
    parseFields (fuel + 1) cs =
      match cs with
      | '"' :: r0 =>
          (parseStrBody r0).bind fun kp =>
            match kp.2 with
            | ':' :: r2 =>
                (parseVal fuel r2).bind fun vp =>
                  match vp.2 with
                  | ',' :: r4 =>
                      (parseFields fuel r4).map fun q =>
                        ((String.mk kp.1, vp.1) :: q.1, q.2)
                  | '}' :: r4 => some ([(String.mk kp.1, vp.1)], r4)
                  | _ => none
            | _ => none
      | _ => none := rfl

theorem parse_emit (f : Nat) :
    (∀ v rest, (emitVal v).length ≤ f → delimOk rest = true →
      parseVal f (emitVal v ++ rest) = some (v, rest)) ∧
    (∀ x xs rest, (emitItems x xs).length ≤ f → delimOk rest = true →
      parseItems f (emitItems x xs ++ rest) = some (x :: xs, rest)) ∧
    (∀ kv kvs rest, (emitFields kv kvs).length ≤ f → delimOk rest = true →
      parseFields f (emitFields kv kvs ++ rest) = some (kv :: kvs, rest)) := by
  induction f with
  | zero =>
    refine ⟨fun v rest hlen _ => absurd hlen ?_, fun x xs rest hlen _ => absurd hlen ?_,
      fun kv kvs rest hlen _ => absurd hlen ?_⟩
    · have := emitVal_length_pos v
      omega
    · obtain ⟨q, hq⟩ := emitItems_eq_append x xs
      have := emitVal_length_pos x
      simp only [hq, List.length_append]
      omega
    · obtain ⟨q, hq⟩ := emitFields_eq_cons kv kvs
      simp only [hq, List.length_cons]
      omega
  | succ f ih =>
    refine ⟨?_, ?_, ?_⟩
    · -- one value
      intro v rest hlen hdelim
      cases v with
      | null =>
        simp only [emitVal, List.cons_append, List.nil_append]
        rw [parseVal.eq_def]
        simp +decide
      | bool b =>
        cases b <;>
          (simp only [emitVal, List.cons_append, List.nil_append]
           rw [parseVal.eq_def]
           simp +decide)
      | num i =>
        by_cases hi : i < 0
        · have he : emitVal (Json.num i) = Char.ofNat 45 :: natToChars i.natAbs := by
            simp [emitVal, intToChars, hi]
          have htd : takeDigits (natToChars i.natAbs ++ rest) = (natToChars i.natAbs, rest) :=
            takeDigits_of_digits _ _ (natToChars_digits _) (delimOk_headDigit _ hdelim)
          rw [he, List.cons_append, parseVal.eq_def]
          simp +decide only [if_true, if_false, headDigit_natToChars, htd,
            digitsToNat_natToChars_zero]
          rw [show -((i.natAbs : Int)) = i from by omega]
        · have he : emitVal (Json.num i) = natToChars i.toNat := by
            simp [emitVal, intToChars, hi]
          obtain ⟨c, cs, hc⟩ := List.exists_cons_of_ne_nil (natToChars_ne_nil i.toNat)
          have hdig : c.isDigit = true :=
            natToChars_digits _ c (by rw [hc]; exact List.mem_cons_self _ _)
          have hn : ¬(c = 'n') := fun h => by subst h; exact absurd hdig (by decide)
          have ht : ¬(c = 't') := fun h => by subst h; exact absurd hdig (by decide)
          have hf2 : ¬(c = 'f') := fun h => by subst h; exact absurd hdig (by decide)
          have hq2 : ¬(c = '"') := fun h => by subst h; exact absurd hdig (by decide)
          have hm : ¬(c = Char.ofNat 45) := fun h => by subst h; exact absurd hdig (by decide)
          have hlb : ¬(c = '[') := fun h => by subst h; exact absurd hdig (by decide)
          have hob : ¬(c = '{') := fun h => by subst h; exact absurd hdig (by decide)
          have hre : c :: (cs ++ rest) = natToChars i.toNat ++ rest := by
            rw [hc, List.cons_append]
          have htd : takeDigits (natToChars i.toNat ++ rest) = (natToChars i.toNat, rest) :=
            takeDigits_of_digits _ _ (natToChars_digits _) (delimOk_headDigit _ hdelim)
          rw [he, hc, List.cons_append, parseVal.eq_def]
          simp only [if_neg hn, if_neg ht, if_neg hf2, if_neg hq2, if_neg hm, if_neg hlb,
            if_neg hob, hdig, if_true, hre, htd, digitsToNat_natToChars_zero]
          rw [show ((i.toNat : Int)) = i from by omega]
      | str s =>
        obtain ⟨l⟩ := s
        have he : emitVal (Json.str ⟨l⟩) = '"' :: (escList l ++ ['"']) := by simp [emitVal]
        rw [he, List.cons_append, List.append_assoc, List.singleton_append, parseVal.eq_def]
        simp +decide only [if_true, if_false, parseStrBody_escList]
        rfl
      | arr xs =>
        cases xs with
        | nil =>
          simp only [emitVal, List.cons_append, List.nil_append]
          rw [parseVal.eq_def]
          simp +decide
        | cons x xs =>
          have hlen2 : (emitItems x xs).length ≤ f := by
            simp only [emitVal, List.length_cons] at hlen
            omega
          obtain ⟨q, hq⟩ := emitItems_eq_append x xs
          obtain ⟨c0, cs0, hc0⟩ := List.exists_cons_of_ne_nil (emitVal_ne_nil x)
          have hne : ¬(c0 = ']') := emitVal_head_ne_rbracket x c0 cs0 hc0
          have hshape : emitItems x xs ++ rest = c0 :: (cs0 ++ q ++ rest) := by
            rw [hq, hc0]
            simp [List.append_assoc]
          simp only [emitVal, List.cons_append]
          rw [parseVal.eq_def]
          simp +decide only [hshape, if_true, if_false, List.head?_cons, Option.some.injEq,
            if_neg hne]
          rw [← hshape, ih.2.1 x xs rest hlen2 hdelim]
          rfl
      | obj kvs =>
        cases kvs with
        | nil =>
          simp only [emitVal, List.cons_append, List.nil_append]
          rw [parseVal.eq_def]
          simp +decide
        | cons kv kvs =>
          have hlen2 : (emitFields kv kvs).length ≤ f := by
            simp only [emitVal, List.length_cons] at hlen
            omega
          obtain ⟨q, hq⟩ := emitFields_eq_cons kv kvs
          have hshape : emitFields kv kvs ++ rest = '"' :: (q ++ rest) := by
            rw [hq, List.cons_append]
          simp only [emitVal, List.cons_append]
          rw [parseVal.eq_def]
          simp +decide only [hshape, if_true, if_false, List.head?_cons, Option.some.injEq]
          rw [← hshape, ih.2.2 kv kvs rest hlen2 hdelim]
          rfl
    · -- items of a non-empty array
      intro x xs rest hlen hdelim
      cases xs with
      | nil =>
        have he : emitItems x [] = emitVal x ++ [']'] := by simp [emitItems]
        have hlenx : (emitVal x).length ≤ f := by
          rw [he] at hlen
          simp only [List.length_append, List.length_singleton] at hlen
          omega
        rw [he, List.append_assoc, List.singleton_append, parseItems_succ]
        rw [ih.1 x (']' :: rest) hlenx (by simp [delimOk])]
        rfl
      | cons y ys =>
        have he : emitItems x (y :: ys) = emitVal x ++ ',' :: emitItems y ys := by
          simp [emitItems]
        have hlenx : (emitVal x).length ≤ f := by
          rw [he] at hlen
          simp only [List.length_append, List.length_cons] at hlen
          omega
        have hleny : (emitItems y ys).length ≤ f := by
          rw [he] at hlen
          have := emitVal_length_pos x
          simp only [List.length_append, List.length_cons] at hlen
          omega
        rw [he, List.append_assoc, List.cons_append, parseItems_succ]
        rw [ih.1 x (',' :: (emitItems y ys ++ rest)) hlenx (by simp [delimOk])]
        simp only [Option.some_bind]
        rw [ih.2.1 y ys rest hleny hdelim]
        rfl
    · -- fields of a non-empty object
      intro kv kvs rest hlen hdelim
      obtain ⟨k, v⟩ := kv
      obtain ⟨kl⟩ := k
      cases kvs with
      | nil =>
        have he : emitFields (⟨kl⟩, v) [] =
            '"' :: (escList kl ++ '"' :: (':' :: (emitVal v ++ ['}']))) := by
          simp [emitFields]
        have hlenv : (emitVal v).length ≤ f := by
          rw [he] at hlen
          simp only [List.length_cons, List.length_append] at hlen
          omega
        rw [he, List.cons_append, List.append_assoc, List.cons_append, List.cons_append,
          List.append_assoc, List.singleton_append, parseFields_succ]
        simp +decide only []
        rw [parseStrBody_escList kl (':' :: (emitVal v ++ '}' :: rest))]
        simp only [Option.some_bind]
        rw [ih.1 v ('}' :: rest) hlenv (by simp [delimOk])]
        rfl
      | cons kv2 rest2 =>
        have he : emitFields (⟨kl⟩, v) (kv2 :: rest2) =
            '"' :: (escList kl ++ '"' :: (':' :: (emitVal v ++ ',' :: emitFields kv2 rest2))) := by
          simp [emitFields]
        have hlenv : (emitVal v).length ≤ f := by
          rw [he] at hlen
          simp only [List.length_cons, List.length_append] at hlen
          omega
        have hlen2 : (emitFields kv2 rest2).length ≤ f := by
          rw [he] at hlen
          simp only [List.length_cons, List.length_append] at hlen
          omega
        rw [he, List.cons_append, List.append_assoc, List.cons_append, List.cons_append,
          List.append_assoc, List.cons_append, parseFields_succ]
        simp +decide only []
        rw [parseStrBody_escList kl (':' :: (emitVal v ++ ',' :: (emitFields kv2 rest2 ++ rest)))]
        simp only [Option.some_bind]
        rw [ih.1 v (',' :: (emitFields kv2 rest2 ++ rest)) hlenv (by simp [delimOk])]
        simp only [Option.some_bind]
        rw [ih.2.2 kv2 rest2 rest hlen2 hdelim]
        rfl

/-- Round trip at the top level: parsing the canonical serialization of any
value returns exactly that value. -/
theorem parseJson_stringify (v : Json) : parseJson (stringify v) = some v := by
  have h := (parse_emit (emitVal v).length).1 v [] (le_refl _) rfl
  rw [List.append_nil] at h
  simp [parseJson, stringify, h]

/-! Percent-encoding lemmas for the endpoint URL. -/

theorem percentEncodeChar_uuid (c : Char) (h : isUUIDChar c = true) :
    percentEncodeChar componentKeep c = [c] := by
  have h2 : c ∈ uuidChars := List.elem_iff.1 h
  fin_cases h2 <;> rfl

theorem percentEncode_uuid (s : String) (h : ∀ c ∈ s.data, isUUIDChar c = true) :
    percentEncode s = s := by
  obtain ⟨l⟩ := s
  simp only [percentEncode]
  apply congrArg String.mk
  induction l with
  | nil => rfl
  | cons c cs ih =>
    simp only [List.map_cons, List.flatten_cons]
    rw [percentEncodeChar_uuid c (h c (List.mem_cons_self _ _)),
      ih (fun c2 hc2 => h c2 (List.mem_cons_of_mem _ hc2))]
    rfl

/-! Registry lemmas: `Map.set` semantics, key monotonicity, well-keyedness. -/

theorem mapSet_keys_mono (m : List (String × SSEElysiaTransport)) (k : String)
    (v : SSEElysiaTransport) (k0 : String)
    (h : (m.map Prod.fst).contains k0 = true) :
    ((mapSet m k v).map Prod.fst).contains k0 = true := by
  induction m with
  | nil => simp at h
  | cons e rest ih =>
    obtain ⟨k1, v1⟩ := e
    simp only [mapSet]
    split
    next heq =>
      subst heq
      exact h
    next hne =>
      simp only [List.map_cons, List.contains_cons, Bool.or_eq_true] at h ⊢
      rcases h with h | h
      · exact Or.inl h
      · exact Or.inr (ih h)

theorem mapSet_keys_self (m : List (String × SSEElysiaTransport)) (k : String)
    (v : SSEElysiaTransport) :
    ((mapSet m k v).map Prod.fst).contains k = true := by
  induction m with
  | nil => simp [mapSet]
  | cons e rest ih =>
    obtain ⟨k1, v1⟩ := e
    simp only [mapSet]
    split
    next heq => simp
    next hne =>
      simp only [List.map_cons, List.contains_cons, Bool.or_eq_true]
      exact Or.inr ih

theorem mapSet_all (P : String × SSEElysiaTransport → Bool)
    (m : List (String × SSEElysiaTransport)) (k : String) (v : SSEElysiaTransport)
    (hm : m.all P = true) (hv : P (k, v) = true) : (mapSet m k v).all P = true := by
  induction m with
  | nil => simp [mapSet, hv]
  | cons e rest ih =>
    obtain ⟨k1, v1⟩ := e
    simp only [List.all_cons, Bool.and_eq_true] at hm
    simp only [mapSet]
    split
    next heq => simp [List.all_cons, hv, hm.2]
    next hne => simp [List.all_cons, hm.1, ih hm.2]

theorem mapGet_all (P : String × SSEElysiaTransport → Bool)
    (m : List (String × SSEElysiaTransport)) (k : String) (t : SSEElysiaTransport)
    (hm : m.all P = true) (h : mapGet m k = some t) : P (k, t) = true := by
  induction m with
  | nil => simp [mapGet] at h
  | cons e rest ih =>
    obtain ⟨k1, v1⟩ := e
    simp only [List.all_cons, Bool.and_eq_true] at hm
    simp only [mapGet] at h
    split at h
    next heq =>
      subst heq
      obtain rfl : v1 = t := by simpa using h
      exact hm.1
    next hne => exact ih hm.2 h

/-! Session-id preservation across transport operations. -/

theorem close_sessionId (t : SSEElysiaTransport) :
    (SSEElysiaTransport.close t).1.sessionId = t.sessionId := rfl

theorem streamCancel_sessionId (t : SSEElysiaTransport) :
    (SSEElysiaTransport.streamCancel t).1.sessionId = t.sessionId := rfl

theorem send_state_sessionId (t : SSEElysiaTransport) (w : Bool) (m : Json) :
    (SSEElysiaTransport.send t w m).state.sessionId = t.sessionId := by
  cases hc : t.isConnected <;> cases w <;>
    simp [SSEElysiaTransport.send, SSEElysiaTransport.sendEventStep,
      SSEElysiaTransport.handleErrorStep, hc]

theorem handleMessage_state (t : SSEElysiaTransport) (body : Json) :
    (SSEElysiaTransport.handleMessage t body).state = t := by
  by_cases h : isJSONRPC body = true <;> simp [SSEElysiaTransport.handleMessage, h]

theorem handlePostMessage_state (t : SSEElysiaTransport) (body : Json) :
    (SSEElysiaTransport.handlePostMessage t body).1.state = t := by
  by_cases hc : t.isConnected = false
  · simp [SSEElysiaTransport.handlePostMessage, hc]
  · by_cases hv : isJSONRPC body = true <;>
      simp [SSEElysiaTransport.handlePostMessage, SSEElysiaTransport.handleMessage, hc, hv]

theorem connectedTransport_sessionId (id : String) :
    (connectedTransport id).sessionId = id := rfl

/-! Step lemmas for the routing layer. -/

theorem step_keys_mono (s : SystemState) (a : SysAction) (k0 : String)
    (h : (registryKeys s).contains k0 = true) :
    (registryKeys (stepSystem s a)).contains k0 = true := by
  cases a with
  | connect id => exact mapSet_keys_mono _ _ _ _ h
  | postMessage sid body =>
    simp only [stepSystem]
    cases hm : mapGet s.transports sid with
    | none => exact h
    | some t => exact mapSet_keys_mono _ _ _ _ h
  | closeTransport sid =>
    simp only [stepSystem]
    cases hm : mapGet s.transports sid with
    | none => exact h
    | some t => exact mapSet_keys_mono _ _ _ _ h
  | cancel sid =>
    simp only [stepSystem]
    cases hm : mapGet s.transports sid with
    | none => exact h
    | some t => exact mapSet_keys_mono _ _ _ _ h
  | serverSend sid w m =>
    simp only [stepSystem]
    cases hm : mapGet s.transports sid with
    | none => exact h
    | some t => exact mapSet_keys_mono _ _ _ _ h

theorem wellKeyed_step (s : SystemState) (a : SysAction) (h : wellKeyed s = true) :
    wellKeyed (stepSystem s a) = true := by
  cases a with
  | connect id =>
    exact mapSet_all _ _ _ _ h (by simp [connectedTransport_sessionId])
  | postMessage sid body =>
    simp only [stepSystem]
    cases hm : mapGet s.transports sid with
    | none => exact h
    | some t =>
      have ht : sid = t.sessionId := by
        have := mapGet_all _ _ _ _ h hm
        simpa using this
      exact mapSet_all _ _ _ _ h (by simp [handlePostMessage_state, ht])
  | closeTransport sid =>
    simp only [stepSystem]
    cases hm : mapGet s.transports sid with
    | none => exact h
    | some t =>
      have ht : sid = t.sessionId := by
        have := mapGet_all _ _ _ _ h hm
        simpa using this
      exact mapSet_all _ _ _ _ h (by simp [close_sessionId, ht])
  | cancel sid =>
    simp only [stepSystem]
    cases hm : mapGet s.transports sid with
    | none => exact h
    | some t =>
      have ht : sid = t.sessionId := by
        have := mapGet_all _ _ _ _ h hm
        simpa using this
      exact mapSet_all _ _ _ _ h (by simp [streamCancel_sessionId, ht])
  | serverSend sid w m =>
    simp only [stepSystem]
    cases hm : mapGet s.transports sid with
    | none => exact h
    | some t =>
      have ht : sid = t.sessionId := by
        have := mapGet_all _ _ _ _ h hm
        simpa using this
      exact mapSet_all _ _ _ _ h (by simp [send_state_sessionId, ht])

theorem runSystem_append (acts : List SysAction) (a : SysAction) :
    runSystem (acts ++ [a]) = stepSystem (runSystem acts) a := by
  simp [runSystem, List.foldl_append]

theorem wellKeyed_run (acts : List SysAction) : wellKeyed (runSystem acts) = true := by
  suffices h : ∀ (l : List SysAction) (s : SystemState),
      wellKeyed s = true → wellKeyed (l.foldl stepSystem s) = true by
    exact h acts _ rfl
  intro l
  induction l with
  | nil => exact fun s hs => hs
  | cons a rest ih => exact fun s hs => ih _ (wellKeyed_step s a hs)

/-! The claims. -/

/-- Claim C1, counterexample: `close()` has no double-invocation guard.  On a
transport with a registered close callback, the first `close()` transitions to
Closed, and a second `close()` on the already-closed transport invokes the
close callback again — refuting "calling close() a second time on an
already-closed transport does not invoke the close callback again". -/
theorem close_double_invoke_counterexample_C1 :
    ((SSEElysiaTransport.close
        { sessionId := "s1", endpoint := "/messages", isConnected := true,
          onclose := true, onerror := true, onmessage := true }).1.isConnected = false) ∧
    ((SSEElysiaTransport.close
        (SSEElysiaTransport.close
          { sessionId := "s1", endpoint := "/messages", isConnected := true,
            onclose := true, onerror := true, onmessage := true }).1).2
      = [Effect.callClose]) :=
  ⟨rfl, rfl⟩

/-- Claim C1, amended: `close()` transitions to Closed unconditionally and is
idempotent on the state, but it invokes the registered onclose callback once
per call — including calls on an already-closed transport — rather than once
per Connected-to-Closed transition. -/
theorem close_per_call_C1 (t : SSEElysiaTransport) :
    ((SSEElysiaTransport.close t).1.isConnected = false) ∧
    ((SSEElysiaTransport.close (SSEElysiaTransport.close t).1).1
      = (SSEElysiaTransport.close t).1) ∧
    ((SSEElysiaTransport.close t).2 = optEffect t.onclose Effect.callClose) ∧
    ((SSEElysiaTransport.close (SSEElysiaTransport.close t).1).2
      = optEffect t.onclose Effect.callClose) :=
  ⟨rfl, rfl, rfl, rfl⟩

/-- Claim C2, counterexample: after a client connects and then disconnects
(the stream cancel callback runs), the transport is no longer connected but
its registry entry is never removed, so the registry key set does not equal
the set of session ids of connected transports at this reachable state. -/
theorem registry_not_pruned_counterexample_C2 :
    registrumEq (runSystem [SysAction.connect "a", SysAction.cancel "a"]) = false := by
  decide

/-- Claim C2, amended: the registry is insert-only.  Every entry is keyed by
its transport's own session id, a step never removes a key, and a connect
adds its fresh id — so the key set equals the ids of all transports ever
accepted (a superset of the connected ones), rather than exactly the
connected ones. -/
theorem registry_monotone_wellKeyed_C2 (acts : List SysAction) (a : SysAction) (id : String) :
    (keysSubset (registryKeys (runSystem acts))
      (registryKeys (runSystem (acts ++ [a]))) = true) ∧
    (wellKeyed (runSystem acts) = true) ∧
    ((registryKeys (runSystem (acts ++ [SysAction.connect id]))).contains id = true) := by
  refine ⟨?_, wellKeyed_run acts, ?_⟩
  · rw [runSystem_append]
    apply List.all_eq_true.2
    intro k0 hk0
    exact step_keys_mono _ _ _ (List.elem_iff.2 hk0)
  · rw [runSystem_append]
    exact mapSet_keys_self _ _ _

/-- Claim C3: on a connected transport with a registered message callback,
handling a well-formed protocol envelope yields the accepted outcome — a
202 response with body `{success: true}` — no thrown error, and exactly one
invocation of the message callback with the decoded message. -/
theorem valid_message_accepted_C3 (t : SSEElysiaTransport) (body : Json)
    (hc : t.isConnected = true) (hm : t.onmessage = true) (hv : isJSONRPC body = true) :
    ((SSEElysiaTransport.handlePostMessage t body).2.status = 202) ∧
    ((SSEElysiaTransport.handlePostMessage t body).2.body = "\x7b\"success\":true\x7d") ∧
    ((SSEElysiaTransport.handlePostMessage t body).1.effects = [Effect.callMessage body]) ∧
    ((SSEElysiaTransport.handlePostMessage t body).1.err = none) := by
  have hf : ¬(t.isConnected = false) := by simp [hc]
  have hbody : stringify (Json.obj [("success", Json.bool true)]) = "\x7b\"success\":true\x7d" := by
    simp only [stringify, emitVal, emitFields]
    decide
  refine ⟨?_, ?_, ?_, ?_⟩ <;>
    simp [SSEElysiaTransport.handlePostMessage, SSEElysiaTransport.handleMessage, hf, hv, hm,
      optEffect, hbody]

theorem valid_message_accepted_C3_witness :
    (({ sessionId := "s1", endpoint := "/messages", isConnected := true,
        onclose := true, onerror := true, onmessage := true } : SSEElysiaTransport).isConnected
      = true) ∧
    (isJSONRPC (Json.obj [("jsonrpc", Json.str "2.0"), ("method", Json.str "ping"),
        ("id", Json.num 1)]) = true) ∧
    (((SSEElysiaTransport.handlePostMessage
        { sessionId := "s1", endpoint := "/messages", isConnected := true,
          onclose := true, onerror := true, onmessage := true }
        (Json.obj [("jsonrpc", Json.str "2.0"), ("method", Json.str "ping"),
          ("id", Json.num 1)])).2.status = 202) ∧
      ((SSEElysiaTransport.handlePostMessage
        { sessionId := "s1", endpoint := "/messages", isConnected := true,
          onclose := true, onerror := true, onmessage := true }
        (Json.obj [("jsonrpc", Json.str "2.0"), ("method", Json.str "ping"),
          ("id", Json.num 1)])).2.body = "\x7b\"success\":true\x7d") ∧
      ((SSEElysiaTransport.handlePostMessage
        { sessionId := "s1", endpoint := "/messages", isConnected := true,
          onclose := true, onerror := true, onmessage := true }
        (Json.obj [("jsonrpc", Json.str "2.0"), ("method", Json.str "ping"),
          ("id", Json.num 1)])).1.effects
        = [Effect.callMessage (Json.obj [("jsonrpc", Json.str "2.0"),
            ("method", Json.str "ping"), ("id", Json.num 1)])]) ∧
      ((SSEElysiaTransport.handlePostMessage
        { sessionId := "s1", endpoint := "/messages", isConnected := true,
          onclose := true, onerror := true, onmessage := true }
        (Json.obj [("jsonrpc", Json.str "2.0"), ("method", Json.str "ping"),
          ("id", Json.num 1)])).1.err = none)) :=
  ⟨rfl, by decide, valid_message_accepted_C3 _ _ rfl rfl (by decide)⟩

/-- Claim C4: on a connected transport with a registered error callback,
handling a body that fails envelope validation yields a 400 response carrying
the validation error, invokes the error callback (and not the message
callback), leaves the transport state — in particular `Connected` —
unchanged, and a subsequent well-formed message is still accepted with 202. -/
theorem invalid_message_rejected_C4 (t : SSEElysiaTransport) (body : Json)
    (hc : t.isConnected = true) (he : t.onerror = true) (hv : isJSONRPC body = false) :
    ((SSEElysiaTransport.handlePostMessage t body).2.status = 400) ∧
    ((SSEElysiaTransport.handlePostMessage t body).2.body
      = "\x7b\"error\":\"Invalid message format\"\x7d") ∧
    ((SSEElysiaTransport.handlePostMessage t body).1.effects
      = [Effect.callError "Invalid message format"]) ∧
    ((SSEElysiaTransport.handlePostMessage t body).1.state = t) ∧
    (∀ body2, isJSONRPC body2 = true →
      (SSEElysiaTransport.handlePostMessage
        (SSEElysiaTransport.handlePostMessage t body).1.state body2).2.status = 202) := by
  have hf : ¬(t.isConnected = false) := by simp [hc]
  have hbody : stringify (Json.obj [("error", Json.str "Invalid message format")])
      = "\x7b\"error\":\"Invalid message format\"\x7d" := by
    simp only [stringify, emitVal, emitFields, escList]
    decide
  refine ⟨?_, ?_, ?_, ?_, ?_⟩
  · simp [SSEElysiaTransport.handlePostMessage, SSEElysiaTransport.handleMessage, hf, hv, he,
      optEffect]
  · simp [SSEElysiaTransport.handlePostMessage, SSEElysiaTransport.handleMessage, hf, hv, he,
      optEffect, SSEElysiaTransport.errText, hbody]
  · simp [SSEElysiaTransport.handlePostMessage, SSEElysiaTransport.handleMessage, hf, hv, he,
      optEffect]
  · exact handlePostMessage_state t body
  · intro body2 hv2
    rw [handlePostMessage_state t body]
    simp [SSEElysiaTransport.handlePostMessage, SSEElysiaTransport.handleMessage, hf, hv2]

theorem invalid_message_rejected_C4_witness :
    (({ sessionId := "s1", endpoint := "/messages", isConnected := true,
        onclose := true, onerror := true, onmessage := true } : SSEElysiaTransport).isConnected
      = true) ∧
    (isJSONRPC Json.null = false) ∧
    (((SSEElysiaTransport.handlePostMessage
        { sessionId := "s1", endpoint := "/messages", isConnected := true,
          onclose := true, onerror := true, onmessage := true } Json.null).2.status = 400) ∧
      ((SSEElysiaTransport.handlePostMessage
        { sessionId := "s1", endpoint := "/messages", isConnected := true,
          onclose := true, onerror := true, onmessage := true } Json.null).2.body
        = "\x7b\"error\":\"Invalid message format\"\x7d") ∧
      ((SSEElysiaTransport.handlePostMessage
        { sessionId := "s1", endpoint := "/messages", isConnected := true,
          onclose := true, onerror := true, onmessage := true } Json.null).1.effects
        = [Effect.callError "Invalid message format"]) ∧
      ((SSEElysiaTransport.handlePostMessage
        { sessionId := "s1", endpoint := "/messages", isConnected := true,
          onclose := true, onerror := true, onmessage := true } Json.null).1.state
        = { sessionId := "s1", endpoint := "/messages", isConnected := true,
            onclose := true, onerror := true, onmessage := true }) ∧
      (∀ body2, isJSONRPC body2 = true →
        (SSEElysiaTransport.handlePostMessage
          (SSEElysiaTransport.handlePostMessage
            { sessionId := "s1", endpoint := "/messages", isConnected := true,
              onclose := true, onerror := true, onmessage := true } Json.null).1.state
          body2).2.status = 202)) :=
  ⟨rfl, by decide, invalid_message_rejected_C4 _ _ rfl rfl (by decide)⟩

/-- Claim C5: `send` on a transport that is not connected — never started,
closed, or downed by a write failure — throws the not-connected error,
writes nothing to the sink, and leaves the state unchanged; it never
silently succeeds. -/
theorem send_not_connected_C5 (t : SSEElysiaTransport) (writeOk : Bool) (m : Json)
    (h : t.isConnected = false) :
    SSEElysiaTransport.send t writeOk m
      = { state := t, effects := [], err := some Err.notConnected } := by
  simp [SSEElysiaTransport.send, h]

theorem send_not_connected_C5_witness :
    (({ sessionId := "s1", endpoint := "/messages", isConnected := false,
        onclose := true, onerror := true, onmessage := true } : SSEElysiaTransport).isConnected
      = false) ∧
    (SSEElysiaTransport.send
        { sessionId := "s1", endpoint := "/messages", isConnected := false,
          onclose := true, onerror := true, onmessage := true } true (Json.num 1)
      = ⟨{ sessionId := "s1", endpoint := "/messages", isConnected := false,
           onclose := true, onerror := true, onmessage := true },
         [], some Err.notConnected⟩) :=
  ⟨rfl, send_not_connected_C5 _ true (Json.num 1) rfl⟩

/-- Claim C6: a successful `start()` on a fresh transport writes exactly one
framed `endpoint` event as the first (and only) bytes, whose payload is the
percent-encoded messages path with `?sessionId=<own id>` appended; since the
session id is a canonical UUID, the raw id the code appends coincides with
its percent-encoding.  The transport ends up connected with no error. -/
theorem endpoint_first_event_C6 (t : SSEElysiaTransport)
    (hc : t.isConnected = false) (hid : ∀ c ∈ t.sessionId.data, isUUIDChar c = true) :
    ((SSEElysiaTransport.start t true true).effects
      = [Effect.sinkWrite (utf8Encode (frame "endpoint"
          (encodeURI t.endpoint ++ "?sessionId=" ++ t.sessionId)))]) ∧
    (SSEElysiaTransport.endpointUrl t
      = encodeURI t.endpoint ++ ("?sessionId=" ++ percentEncode t.sessionId)) ∧
    ((SSEElysiaTransport.start t true true).err = none) ∧
    ((SSEElysiaTransport.start t true true).state.isConnected = true) := by
  refine ⟨?_, ?_, ?_, ?_⟩
  · simp [SSEElysiaTransport.start, SSEElysiaTransport.sendEventStep,
      SSEElysiaTransport.endpointUrl, hc]
  · rw [SSEElysiaTransport.endpointUrl, percentEncode_uuid t.sessionId hid,
      String.append_assoc]
  · simp [SSEElysiaTransport.start, SSEElysiaTransport.sendEventStep, hc]
  · simp [SSEElysiaTransport.start, SSEElysiaTransport.sendEventStep, hc]

theorem endpoint_first_event_C6_witness :
    (({ sessionId := "0a-1b", endpoint := "/messages", isConnected := false,
        onclose := false, onerror := false, onmessage := false } : SSEElysiaTransport).isConnected
      = false) ∧
    (∀ c ∈ ("0a-1b" : String).data, isUUIDChar c = true) ∧
    (((SSEElysiaTransport.start
        { sessionId := "0a-1b", endpoint := "/messages", isConnected := false,
          onclose := false, onerror := false, onmessage := false } true true).effects
      = [Effect.sinkWrite (utf8Encode (frame "endpoint"
          (encodeURI "/messages" ++ "?sessionId=" ++ "0a-1b")))]) ∧
      (SSEElysiaTransport.endpointUrl
        { sessionId := "0a-1b", endpoint := "/messages", isConnected := false,
          onclose := false, onerror := false, onmessage := false }
        = encodeURI "/messages" ++ ("?sessionId=" ++ percentEncode "0a-1b")) ∧
      ((SSEElysiaTransport.start
        { sessionId := "0a-1b", endpoint := "/messages", isConnected := false,
          onclose := false, onerror := false, onmessage := false } true true).err = none) ∧
      ((SSEElysiaTransport.start
        { sessionId := "0a-1b", endpoint := "/messages", isConnected := false,
          onclose := false, onerror := false, onmessage := false } true true).state.isConnected
        = true)) :=
  ⟨rfl, by decide, endpoint_first_event_C6 _ rfl (by decide)⟩

/-- Claim C7: on a connected transport, the internal event-write appends to
the sink exactly the UTF-8 byte encoding of the string
`"event: " ++ name ++ "\n" ++ "data: " ++ payload ++ "\n\n"`, and nothing
else; the state is unchanged. -/
theorem sendEvent_frame_C7 (t : SSEElysiaTransport) (name payload : String)
    (h : t.isConnected = true) :
    SSEElysiaTransport.sendEventStep t true name payload
      = (t, [Effect.sinkWrite (utf8Encode
          ("event: " ++ name ++ "\n" ++ "data: " ++ payload ++ "\n\n"))]) := by
  simp [SSEElysiaTransport.sendEventStep, frame, h]

theorem sendEvent_frame_C7_witness :
    (({ sessionId := "s1", endpoint := "/messages", isConnected := true,
        onclose := true, onerror := true, onmessage := true } : SSEElysiaTransport).isConnected
      = true) ∧
    (SSEElysiaTransport.sendEventStep
        { sessionId := "s1", endpoint := "/messages", isConnected := true,
          onclose := true, onerror := true, onmessage := true } true "endpoint" "/messages?sessionId=s1"
      = ({ sessionId := "s1", endpoint := "/messages", isConnected := true,
           onclose := true, onerror := true, onmessage := true },
         [Effect.sinkWrite (utf8Encode
           ("event: " ++ "endpoint" ++ "\n" ++ "data: " ++ "/messages?sessionId=s1" ++ "\n\n"))])) :=
  ⟨rfl, sendEvent_frame_C7 _ "endpoint" "/messages?sessionId=s1" rfl⟩

/-- Claim C8: the internal event-write called on a closed transport is a
silent no-op: it is a total function (never raises, mirroring the guard and
the catch in `_sendEvent`), appends nothing to the sink, and leaves the
state unchanged — for any event name, payload, and write outcome. -/
theorem sendEvent_after_close_C8 (t : SSEElysiaTransport) (writeOk : Bool)
    (name payload : String) :
    SSEElysiaTransport.sendEventStep (SSEElysiaTransport.close t).1 writeOk name payload
      = ((SSEElysiaTransport.close t).1, []) := by
  simp [SSEElysiaTransport.close, SSEElysiaTransport.sendEventStep]

/-- Claim C9: two sequential `send` calls on a connected transport append to
the sink exactly two framed `message` events in call order, carrying the
JSON serializations of the two messages, and each payload deserializes back
to the original message (round trip through the chosen serialization). -/
theorem send_order_roundtrip_C9 (t : SSEElysiaTransport) (m1 m2 : Json)
    (hc : t.isConnected = true) :
    ((SSEElysiaTransport.send t true m1).err = none) ∧
    ((SSEElysiaTransport.send (SSEElysiaTransport.send t true m1).state true m2).err = none) ∧
    ((SSEElysiaTransport.send t true m1).effects
        ++ (SSEElysiaTransport.send (SSEElysiaTransport.send t true m1).state true m2).effects
      = [Effect.sinkWrite (utf8Encode (frame "message" (stringify m1))),
         Effect.sinkWrite (utf8Encode (frame "message" (stringify m2)))]) ∧
    (parseJson (stringify m1) = some m1) ∧
    (parseJson (stringify m2) = some m2) := by
  have hs : SSEElysiaTransport.send t true m1
      = ⟨t, [Effect.sinkWrite (utf8Encode (frame "message" (stringify m1)))], none⟩ := by
    simp [SSEElysiaTransport.send, SSEElysiaTransport.sendEventStep, hc]
  refine ⟨by rw [hs], ?_, ?_, parseJson_stringify m1, parseJson_stringify m2⟩
  · rw [hs]
    simp [SSEElysiaTransport.send, SSEElysiaTransport.sendEventStep, hc]
  · rw [hs]
    simp [SSEElysiaTransport.send, SSEElysiaTransport.sendEventStep, hc]

theorem send_order_roundtrip_C9_witness :
    (({ sessionId := "s1", endpoint := "/messages", isConnected := true,
        onclose := true, onerror := true, onmessage := true } : SSEElysiaTransport).isConnected
      = true) ∧
    (((SSEElysiaTransport.send
        { sessionId := "s1", endpoint := "/messages", isConnected := true,
          onclose := true, onerror := true, onmessage := true } true
        (Json.obj [("jsonrpc", Json.str "2.0"), ("id", Json.num 1),
          ("result", Json.str "ok")])).err = none) ∧
      ((SSEElysiaTransport.send
        (SSEElysiaTransport.send
          { sessionId := "s1", endpoint := "/messages", isConnected := true,
            onclose := true, onerror := true, onmessage := true } true
          (Json.obj [("jsonrpc", Json.str "2.0"), ("id", Json.num 1),
            ("result", Json.str "ok")])).state true
        (Json.arr [Json.num (-3), Json.bool false, Json.null])).err = none) ∧
      ((SSEElysiaTransport.send
          { sessionId := "s1", endpoint := "/messages", isConnected := true,
            onclose := true, onerror := true, onmessage := true } true
          (Json.obj [("jsonrpc", Json.str "2.0"), ("id", Json.num 1),
            ("result", Json.str "ok")])).effects
        ++ (SSEElysiaTransport.send
          (SSEElysiaTransport.send
            { sessionId := "s1", endpoint := "/messages", isConnected := true,
              onclose := true, onerror := true, onmessage := true } true
            (Json.obj [("jsonrpc", Json.str "2.0"), ("id", Json.num 1),
              ("result", Json.str "ok")])).state true
          (Json.arr [Json.num (-3), Json.bool false, Json.null])).effects
        = [Effect.sinkWrite (utf8Encode (frame "message"
            (stringify (Json.obj [("jsonrpc", Json.str "2.0"), ("id", Json.num 1),
              ("result", Json.str "ok")])))),
           Effect.sinkWrite (utf8Encode (frame "message"
            (stringify (Json.arr [Json.num (-3), Json.bool false, Json.null]))))]) ∧
      (parseJson (stringify (Json.obj [("jsonrpc", Json.str "2.0"), ("id", Json.num 1),
          ("result", Json.str "ok")]))
        = some (Json.obj [("jsonrpc", Json.str "2.0"), ("id", Json.num 1),
            ("result", Json.str "ok")])) ∧
      (parseJson (stringify (Json.arr [Json.num (-3), Json.bool false, Json.null]))
        = some (Json.arr [Json.num (-3), Json.bool false, Json.null]))) :=
  ⟨rfl, send_order_roundtrip_C9 _ _ _ rfl⟩

/-- Claim C10: with no callbacks registered, every callback invocation site
is guarded (`?.`-style): `start`, `close`, stream cancellation, `send`,
valid-input `handleMessage`, the write-failure path, and the internal
event-write all complete without raising a missing-callback error and emit
no callback effects; `handleMessage` on invalid input still propagates the
validation error itself, and `send` can only fail with the not-connected
error. -/
theorem unset_callbacks_safe_C10 (t : SSEElysiaTransport) (good bad m : Json) (writeOk : Bool)
    (h1 : t.onclose = false) (h2 : t.onerror = false) (h3 : t.onmessage = false)
    (hg : isJSONRPC good = true) (hb : isJSONRPC bad = false) :
    ((SSEElysiaTransport.start t true writeOk).err = none) ∧
    ((SSEElysiaTransport.close t).2 = []) ∧
    ((SSEElysiaTransport.streamCancel t).2 = []) ∧
    ((SSEElysiaTransport.handleMessage t good).err = none
      ∧ (SSEElysiaTransport.handleMessage t good).effects = []) ∧
    ((SSEElysiaTransport.handleMessage t bad).err
        = some (Err.validation "Invalid message format")
      ∧ (SSEElysiaTransport.handleMessage t bad).effects = []) ∧
    ((SSEElysiaTransport.send t writeOk m).err = none
      ∨ (SSEElysiaTransport.send t writeOk m).err = some Err.notConnected) ∧
    ((SSEElysiaTransport.sendEventStep t false "message" (stringify m)).2 = []) := by
  refine ⟨?_, ?_, ?_, ⟨?_, ?_⟩, ⟨?_, ?_⟩, ?_, ?_⟩
  · cases hcon : t.isConnected <;> cases writeOk <;>
      simp [SSEElysiaTransport.start, SSEElysiaTransport.sendEventStep,
        SSEElysiaTransport.handleErrorStep, hcon, h2]
  · simp [SSEElysiaTransport.close, optEffect, h1]
  · simp [SSEElysiaTransport.streamCancel, optEffect, h1]
  · simp [SSEElysiaTransport.handleMessage, hg]
  · simp [SSEElysiaTransport.handleMessage, hg, h3, optEffect]
  · simp [SSEElysiaTransport.handleMessage, hb]
  · simp [SSEElysiaTransport.handleMessage, hb, h2, optEffect]
  · cases hcon : t.isConnected
    · exact Or.inr (by simp [SSEElysiaTransport.send, hcon])
    · refine Or.inl ?_
      cases writeOk <;>
        simp [SSEElysiaTransport.send, SSEElysiaTransport.sendEventStep,
          SSEElysiaTransport.handleErrorStep, hcon]
  · cases hcon : t.isConnected <;>
      simp [SSEElysiaTransport.sendEventStep, SSEElysiaTransport.handleErrorStep, hcon, h2,
        optEffect]

theorem unset_callbacks_safe_C10_witness :
    (({ sessionId := "s1", endpoint := "/messages", isConnected := true,
        onclose := false, onerror := false, onmessage := false } : SSEElysiaTransport).onclose
      = false) ∧
    (({ sessionId := "s1", endpoint := "/messages", isConnected := true,
        onclose := false, onerror := false, onmessage := false } : SSEElysiaTransport).onerror
      = false) ∧
    (({ sessionId := "s1", endpoint := "/messages", isConnected := true,
        onclose := false, onerror := false, onmessage := false } : SSEElysiaTransport).onmessage
      = false) ∧
    (isJSONRPC (Json.obj [("jsonrpc", Json.str "2.0"), ("method", Json.str "ping"),
        ("id", Json.num 1)]) = true) ∧
    (isJSONRPC Json.null = false) ∧
    (((SSEElysiaTransport.start
        { sessionId := "s1", endpoint := "/messages", isConnected := true,
          onclose := false, onerror := false, onmessage := false } true false).err = none) ∧
      ((SSEElysiaTransport.close
        { sessionId := "s1", endpoint := "/messages", isConnected := true,
          onclose := false, onerror := false, onmessage := false }).2 = []) ∧
      ((SSEElysiaTransport.streamCancel
        { sessionId := "s1", endpoint := "/messages", isConnected := true,
          onclose := false, onerror := false, onmessage := false }).2 = []) ∧
      (((SSEElysiaTransport.handleMessage
          { sessionId := "s1", endpoint := "/messages", isConnected := true,
            onclose := false, onerror := false, onmessage := false }
          (Json.obj [("jsonrpc", Json.str "2.0"), ("method", Json.str "ping"),
            ("id", Json.num 1)])).err = none)
        ∧ ((SSEElysiaTransport.handleMessage
          { sessionId := "s1", endpoint := "/messages", isConnected := true,
            onclose := false, onerror := false, onmessage := false }
          (Json.obj [("jsonrpc", Json.str "2.0"), ("method", Json.str "ping"),
            ("id", Json.num 1)])).effects = [])) ∧
      (((SSEElysiaTransport.handleMessage
          { sessionId := "s1", endpoint := "/messages", isConnected := true,
            onclose := false, onerror := false, onmessage := false } Json.null).err
          = some (Err.validation "Invalid message format"))
        ∧ ((SSEElysiaTransport.handleMessage
          { sessionId := "s1", endpoint := "/messages", isConnected := true,
            onclose := false, onerror := false, onmessage := false } Json.null).effects = [])) ∧
      (((SSEElysiaTransport.send
          { sessionId := "s1", endpoint := "/messages", isConnected := true,
            onclose := false, onerror := false, onmessage := false } false (Json.num 7)).err
          = none)
        ∨ ((SSEElysiaTransport.send
          { sessionId := "s1", endpoint := "/messages", isConnected := true,
            onclose := false, onerror := false, onmessage := false } false (Json.num 7)).err
          = some Err.notConnected)) ∧
      ((SSEElysiaTransport.sendEventStep
        { sessionId := "s1", endpoint := "/messages", isConnected := true,
          onclose := false, onerror := false, onmessage := false } false "message"
        (stringify (Json.num 7))).2 = [])) :=
  ⟨rfl, rfl, rfl, by decide, by decide,
    unset_callbacks_safe_C10 _ _ _ _ false rfl rfl rfl (by decide) (by decide)⟩
